import Mathlib

/-!
Verification of the What-to-Watch movie recommender (`src/recommending.py`).

Python dictionaries are modelled as association lists (`List (K × V)`) in
insertion order; a Python dict always has pairwise-distinct keys, which
appears as `Nodup` hypotheses where a proof needs it.  Ratings (Python
floats) are modelled as rationals, and cosine similarity (which takes a
square root) lives in the reals.  A Python function that can raise
`KeyError` is modelled as returning an `Option`, with `none` for the
raised error.
-/

namespace WhatToWatch

/-- First-match association-list lookup: the model of `d[k]` / `d.get(k)`
on a Python dict rendered as a key-value list in insertion order. -/
def lookup {K V : Type} [DecidableEq K] (k : K) : List (K × V) → Option V
  | [] => none
  | e :: es => if e.1 = k then some e.2 else lookup k es

/-- The keys of an association list, in insertion order. -/
def keys {K V : Type} (l : List (K × V)) : List K := l.map Prod.fst

@[simp] theorem lookup_nil {K V : Type} [DecidableEq K] (k : K) :
    lookup (V := V) k [] = none := rfl

@[simp] theorem lookup_cons {K V : Type} [DecidableEq K] (k : K) (e : K × V) (es : List (K × V)) :
    lookup k (e :: es) = if e.1 = k then some e.2 else lookup k es := rfl

theorem lookup_eq_none_iff {K V : Type} [DecidableEq K] (k : K) (l : List (K × V)) :
    lookup k l = none ↔ k ∉ keys l := by
  induction l with
  | nil => simp [keys]
  | cons e es ih =>
    by_cases h : e.1 = k
    · subst h; simp [lookup, keys]
    · have h' : k ≠ e.1 := fun hh => h hh.symm
      simp [lookup, h, ih, keys, h']

theorem lookup_mem {K V : Type} [DecidableEq K] {k : K} {v : V} {l : List (K × V)}
    (h : lookup k l = some v) : (k, v) ∈ l := by
  induction l with
  | nil => simp [lookup] at h
  | cons e es ih =>
    by_cases he : e.1 = k
    · simp [lookup, he] at h
      subst he h
      simp
    · simp [lookup, he] at h
      exact List.mem_cons_of_mem _ (ih h)

theorem lookup_isSome_of_mem {K V : Type} [DecidableEq K] {k : K} {v : V} {l : List (K × V)}
    (h : (k, v) ∈ l) : ∃ w, lookup k l = some w := by
  induction l with
  | nil => simp at h
  | cons e es ih =>
    rcases List.mem_cons.1 h with h₁ | h₂
    · exact ⟨v, by simp [lookup, ← h₁]⟩
    · by_cases he : e.1 = k
      · exact ⟨e.2, by simp [lookup, he]⟩
      · rcases ih h₂ with ⟨w, hw⟩
        exact ⟨w, by simp [lookup, he, hw]⟩

theorem lookup_eq_some_of_mem_nodup {K V : Type} [DecidableEq K] {k : K} {v : V}
    {l : List (K × V)} (hnd : (keys l).Nodup) (h : (k, v) ∈ l) : lookup k l = some v := by
  induction l with
  | nil => simp at h
  | cons e es ih =>
    simp only [keys, List.map_cons, List.nodup_cons] at hnd
    rcases List.mem_cons.1 h with h₁ | h₂
    · simp [lookup, ← h₁]
    · have hne : e.1 ≠ k := by
        intro he
        exact hnd.1 (he ▸ (List.mem_map.2 ⟨(k, v), h₂, rfl⟩))
      simp [lookup, hne, ih hnd.2 h₂]

theorem lookup_map_value {K V W : Type} [DecidableEq K] (k : K) (F : K → V → W)
    (l : List (K × V)) :
    lookup k (l.map (fun e => (e.1, F e.1 e.2))) = (lookup k l).map (F k) := by
  induction l with
  | nil => rfl
  | cons e es ih =>
    by_cases he : e.1 = k
    · subst he; simp [lookup]
    · simp [lookup, he, ih]

theorem lookup_append {K V : Type} [DecidableEq K] (k : K) (l₁ l₂ : List (K × V)) :
    lookup k (l₁ ++ l₂) = ((lookup k l₁).or (lookup k l₂)) := by
  induction l₁ with
  | nil => simp [lookup]
  | cons e es ih =>
    by_cases he : e.1 = k <;> simp [lookup, he, ih, Option.or]

theorem lookup_filter_key {K V : Type} [DecidableEq K] (k : K) (q : K → Bool)
    (l : List (K × V)) :
    lookup k (l.filter (fun e => q e.1)) = if q k then lookup k l else none := by
  induction l with
  | nil => simp [lookup]
  | cons e es ih =>
    by_cases he : e.1 = k
    · subst he
      by_cases hq : q e.1 <;> simp [lookup, hq, List.filter_cons, ih]
    · by_cases hq : q e.1 <;> simp [lookup, he, hq, List.filter_cons, ih]

/-! ## The catalog and the stores

`movie_info` maps a movie ID to a `(title, genres)` pair, as produced by
`scrape_movie_info`.  `all_user_ratings` maps a user ID to that user's
movie-to-rating dict, and `all_user_preferences` maps a user ID to the
genre-to-average-rating profile derived from it. -/

/-- One user's raw ratings: movie ID → rating. -/
abbrev RatingsOf := List (Nat × ℚ)

/-- One user's genre-preference profile: genre → average rating. -/
abbrev Profile := List (String × ℚ)

/-- The movie catalog: movie ID → (title, genres). -/
abbrev Catalog := List (Nat × (String × List String))

/-- Python dict assignment `d[k] = v`: overwrite the first entry holding
`k` in place, or append `(k, v)` when `k` is absent. -/
def setVal {K V : Type} [DecidableEq K] : List (K × V) → K → V → List (K × V)
  | [], k, v => [(k, v)]
  | e :: es, k, v => if e.1 = k then (k, v) :: es else e :: setVal es k v

theorem lookup_setVal {K V : Type} [DecidableEq K] (l : List (K × V)) (k g : K) (v : V) :
    lookup g (setVal l k v) = if k = g then some v else lookup g l := by
  induction l with
  | nil => by_cases h : k = g <;> simp [setVal, lookup, h]
  | cons e es ih =>
    by_cases hek : e.1 = k
    · subst hek
      by_cases heg : e.1 = g <;> simp [setVal, lookup, heg]
    · by_cases heg : e.1 = g
      · subst heg
        have hkg : k ≠ e.1 := fun hh => hek hh.symm
        simp [setVal, hek, lookup, hkg]
      · simp [setVal, hek, lookup, heg, ih]

/-- The accumulation step of `ratings_to_preferences` for a single genre
tag: `totals[genre] = totals.get(genre, 0.0) + score` and
`counts[genre] = counts.get(genre, 0) + 1`. -/
def bumpGenre (score : ℚ) (tc : List (String × ℚ) × List (String × ℕ)) (genre : String) :
    List (String × ℚ) × List (String × ℕ) :=
  (setVal tc.1 genre ((lookup genre tc.1).getD 0 + score),
   setVal tc.2 genre ((lookup genre tc.2).getD 0 + 1))

/-- The body of the main loop of `ratings_to_preferences`: one
`(movie_id, score)` pair is folded into the `totals`/`counts` pair,
doing nothing when the movie is not in the catalog. -/
def bumpMovie (movie_info : Catalog) (tc : List (String × ℚ) × List (String × ℕ))
    (ms : Nat × ℚ) : List (String × ℚ) × List (String × ℕ) :=
  match lookup ms.1 movie_info with
  | some tg => tg.2.foldl (bumpGenre ms.2) tc
  | none => tc

/-- The model of `MovieRecommender.ratings_to_preferences`: genre → average rating the
user awards to catalog movies carrying that genre. -/
def ratings_to_preferences (movie_info : Catalog) (user_ratings : RatingsOf) : Profile :=
  let tc := user_ratings.foldl (bumpMovie movie_info) ([], [])
  tc.1.map (fun gt => (gt.1, gt.2 / ((lookup gt.1 tc.2).getD 0 : ℚ)))

/-- Whether, per the spec's words, the rated movie `m` counts towards
genre `g`: `m` exists in the catalog and is tagged with `g`. -/
def taggedWith (movie_info : Catalog) (g : String) (m : Nat) : Bool :=
  match lookup m movie_info with
  | some tg => g ∈ tg.2
  | none => false

/-- Spec-side numerator for genre `g`: the sum of the user's ratings of
catalog movies tagged with `g`. -/
def specTotal (movie_info : Catalog) (user_ratings : RatingsOf) (g : String) : ℚ :=
  ((user_ratings.filter (fun ms => taggedWith movie_info g ms.1)).map Prod.snd).sum

/-- Spec-side denominator for genre `g`: the number of such ratings. -/
def specCount (movie_info : Catalog) (user_ratings : RatingsOf) (g : String) : ℕ :=
  (user_ratings.filter (fun ms => taggedWith movie_info g ms.1)).length

/-- Invariant tying the `totals`/`counts` pair built by the loop of
`ratings_to_preferences` to the running total `tot` and count `cnt` of
each genre. -/
def TCInv (tc : List (String × ℚ) × List (String × ℕ)) (tot : String → ℚ)
    (cnt : String → ℕ) : Prop :=
  (∀ g, cnt g = 0 → tot g = 0) ∧
  (∀ g, lookup g tc.1 = if 0 < cnt g then some (tot g) else none) ∧
  (∀ g, lookup g tc.2 = if 0 < cnt g then some (cnt g) else none)

theorem TCInv_congr {tc : List (String × ℚ) × List (String × ℕ)} {tot tot' : String → ℚ}
    {cnt cnt' : String → ℕ} (h : TCInv tc tot cnt) (ht : ∀ g, tot g = tot' g)
    (hc : ∀ g, cnt g = cnt' g) : TCInv tc tot' cnt' := by
  refine ⟨fun g hg => ?_, fun g => ?_, fun g => ?_⟩
  · rw [← ht g]; exact h.1 g (by rw [hc g]; exact hg)
  · rw [← ht g, ← hc g]; exact h.2.1 g
  · rw [← hc g]; exact h.2.2 g

theorem TCInv_getD_total {tc : List (String × ℚ) × List (String × ℕ)} {tot : String → ℚ}
    {cnt : String → ℕ} (h : TCInv tc tot cnt) (g : String) :
    (lookup g tc.1).getD 0 = tot g := by
  rw [h.2.1 g]
  by_cases hg : 0 < cnt g
  · simp [hg]
  · simp [hg, h.1 g (Nat.eq_zero_of_not_pos hg)]

theorem bumpGenre_inv {tc : List (String × ℚ) × List (String × ℕ)} {tot : String → ℚ}
    {cnt : String → ℕ} (h : TCInv tc tot cnt) (s : ℚ) (g₀ : String) :
    TCInv (bumpGenre s tc g₀) (fun g => tot g + if g = g₀ then s else 0)
      (fun g => cnt g + if g = g₀ then 1 else 0) := by
  refine ⟨fun g hg => ?_, fun g => ?_, fun g => ?_⟩
  · by_cases hgg : g = g₀
    · simp [hgg] at hg
    · simp only [hgg, if_neg, ite_false] at hg ⊢
      rw [Nat.add_zero] at hg
      rw [h.1 g hg, add_zero]
  · show lookup g (setVal tc.1 g₀ ((lookup g₀ tc.1).getD 0 + s)) = _
    rw [lookup_setVal]
    by_cases hgg : g₀ = g
    · subst hgg
      simp [TCInv_getD_total h g₀]
    · have : ¬ g = g₀ := fun hh => hgg hh.symm
      simp only [hgg, if_false, this, add_zero, ite_false]
      exact h.2.1 g
  · show lookup g (setVal tc.2 g₀ ((lookup g₀ tc.2).getD 0 + 1)) = _
    rw [lookup_setVal]
    by_cases hgg : g₀ = g
    · subst hgg
      have : (lookup g₀ tc.2).getD 0 = cnt g₀ := by
        rw [h.2.2 g₀]
        by_cases hc : 0 < cnt g₀
        · simp [hc]
        · simp [hc, Nat.eq_zero_of_not_pos hc]
      simp [this]
    · have : ¬ g = g₀ := fun hh => hgg hh.symm
      simp only [hgg, if_false, this, Nat.add_zero, ite_false]
      exact h.2.2 g

theorem foldl_bumpGenre_inv (s : ℚ) (gs : List String) (hnd : gs.Nodup)
    {tc : List (String × ℚ) × List (String × ℕ)} {tot : String → ℚ} {cnt : String → ℕ}
    (h : TCInv tc tot cnt) :
    TCInv (gs.foldl (bumpGenre s) tc) (fun g => tot g + if g ∈ gs then s else 0)
      (fun g => cnt g + if g ∈ gs then 1 else 0) := by
  induction gs generalizing tc tot cnt with
  | nil => exact TCInv_congr h (fun g => by simp) (fun g => by simp)
  | cons g₀ gs' ih =>
    have hnd' : gs'.Nodup := hnd.of_cons
    have hg₀ : g₀ ∉ gs' := (List.nodup_cons.1 hnd).1
    have step := ih hnd' (bumpGenre_inv h s g₀)
    refine TCInv_congr step (fun g => ?_) (fun g => ?_)
    · by_cases h1 : g = g₀
      · subst h1; simp [hg₀]
      · by_cases h2 : g ∈ gs' <;> simp [h1, h2]
    · by_cases h1 : g = g₀
      · subst h1; simp [hg₀]
      · by_cases h2 : g ∈ gs' <;> simp [h1, h2]

theorem specTotal_cons (movie_info : Catalog) (ms : Nat × ℚ) (R : RatingsOf) (g : String) :
    specTotal movie_info (ms :: R) g =
      (if taggedWith movie_info g ms.1 then ms.2 else 0) + specTotal movie_info R g := by
  by_cases h : taggedWith movie_info g ms.1
  · simp [specTotal, List.filter_cons, h]
  · simp [specTotal, List.filter_cons, h]

theorem specCount_cons (movie_info : Catalog) (ms : Nat × ℚ) (R : RatingsOf) (g : String) :
    specCount movie_info (ms :: R) g =
      (if taggedWith movie_info g ms.1 then 1 else 0) + specCount movie_info R g := by
  by_cases h : taggedWith movie_info g ms.1
  · simp [specCount, List.filter_cons, h, Nat.add_comm]
  · simp [specCount, List.filter_cons, h, Nat.add_comm]

theorem foldl_bumpMovie_inv (movie_info : Catalog)
    (hinfo : ∀ e ∈ movie_info, e.2.2.Nodup) (R : RatingsOf)
    {tc : List (String × ℚ) × List (String × ℕ)} {tot : String → ℚ} {cnt : String → ℕ}
    (h : TCInv tc tot cnt) :
    TCInv (R.foldl (bumpMovie movie_info) tc)
      (fun g => tot g + specTotal movie_info R g)
      (fun g => cnt g + specCount movie_info R g) := by
  induction R generalizing tc tot cnt with
  | nil =>
    exact TCInv_congr h (fun g => by simp [specTotal]) (fun g => by simp [specCount])
  | cons ms R' ih =>
    show TCInv (R'.foldl (bumpMovie movie_info) (bumpMovie movie_info tc ms)) _ _
    rcases hms : lookup ms.1 movie_info with _ | tg
    · have hbm : bumpMovie movie_info tc ms = tc := by simp [bumpMovie, hms]
      rw [hbm]
      refine TCInv_congr (ih h) (fun g => ?_) (fun g => ?_)
      · rw [specTotal_cons]; simp [taggedWith, hms]
      · rw [specCount_cons]; simp [taggedWith, hms]
    · have hbm : bumpMovie movie_info tc ms = tg.2.foldl (bumpGenre ms.2) tc := by
        simp [bumpMovie, hms]
      rw [hbm]
      have hnd : tg.2.Nodup := hinfo (ms.1, tg) (lookup_mem hms)
      have step := foldl_bumpGenre_inv ms.2 tg.2 hnd h
      have := ih step
      refine TCInv_congr this (fun g => ?_) (fun g => ?_)
      · rw [specTotal_cons]
        have : taggedWith movie_info g ms.1 = decide (g ∈ tg.2) := by
          simp [taggedWith, hms]
        rw [this]
        by_cases hg : g ∈ tg.2
        · simp [hg]; ring
        · simp [hg]
      · rw [specCount_cons]
        have : taggedWith movie_info g ms.1 = decide (g ∈ tg.2) := by
          simp [taggedWith, hms]
        rw [this]
        by_cases hg : g ∈ tg.2
        · simp [hg]; omega
        · simp [hg]

theorem ratings_to_preferences_lookup (movie_info : Catalog)
    (hinfo : ∀ e ∈ movie_info, e.2.2.Nodup) (R : RatingsOf) (g : String) :
    lookup g (ratings_to_preferences movie_info R) =
      if 0 < specCount movie_info R g then
        some (specTotal movie_info R g / (specCount movie_info R g : ℚ))
      else none := by
  have hinit : TCInv ([], []) (fun _ => (0 : ℚ)) (fun _ => (0 : ℕ)) := by
    refine ⟨fun g _ => rfl, fun g => by simp [lookup], fun g => by simp [lookup]⟩
  have hinv := foldl_bumpMovie_inv movie_info hinfo R hinit
  have hinv : TCInv (R.foldl (bumpMovie movie_info) ([], []))
      (specTotal movie_info R) (specCount movie_info R) :=
    TCInv_congr hinv (fun g => by simp) (fun g => by simp)
  show lookup g ((R.foldl (bumpMovie movie_info) ([], [])).1.map
      (fun gt => (gt.1, gt.2 / ((lookup gt.1 (R.foldl (bumpMovie movie_info) ([], [])).2).getD 0 : ℚ)))) = _
  rw [lookup_map_value g
    (fun k v => v / (((lookup k (R.foldl (bumpMovie movie_info) ([], [])).2).getD 0 : ℕ) : ℚ))]
  rw [hinv.2.1 g, hinv.2.2 g]
  by_cases hc : 0 < specCount movie_info R g <;> simp [hc]

/-- A catalog in which one movie carries the same genre tag twice. -/
def dupGenreCatalog : Catalog := [(1, ("A", ["g", "g"])), (2, ("B", ["g"]))]

/-- Ratings of one user over `dupGenreCatalog`. -/
def dupGenreRatings : RatingsOf := [(1, 1), (2, 3)]

/-- C2 counterexample: with a duplicated genre tag the code returns
average 5/3 for genre "g" while the claimed sum/count formula gives 2,
so the claim as stated (over every catalog) fails. -/
theorem ratings_to_preferences_duplicate_genre_cex :
    lookup "g" (ratings_to_preferences dupGenreCatalog dupGenreRatings) ≠
      some (specTotal dupGenreCatalog dupGenreRatings "g" /
        (specCount dupGenreCatalog dupGenreRatings "g" : ℚ)) := by
  simp only [dupGenreCatalog, dupGenreRatings, ratings_to_preferences, bumpMovie, bumpGenre,
    specTotal, specCount, taggedWith, List.foldl, List.filter, List.map, lookup, setVal]
  norm_num

/-- C2 (amended: each catalog movie's genre list must be duplicate-free):
the profile maps exactly the genres of catalog movies the user rated to
the sum of the ratings of the user's catalog movies tagged with that
genre divided by the number of such ratings; movies absent from the
catalog contribute nothing. -/
theorem ratings_to_preferences_spec (movie_info : Catalog)
    (hinfo : ∀ e ∈ movie_info, e.2.2.Nodup) (user_ratings : RatingsOf) (g : String) :
    lookup g (ratings_to_preferences movie_info user_ratings) =
      (if 0 < specCount movie_info user_ratings g then
        some (specTotal movie_info user_ratings g /
          (specCount movie_info user_ratings g : ℚ))
      else none) ∧
    (g ∈ keys (ratings_to_preferences movie_info user_ratings) ↔
      ∃ ms ∈ user_ratings, taggedWith movie_info g ms.1) := by
  have h := ratings_to_preferences_lookup movie_info hinfo user_ratings g
  refine ⟨h, ?_⟩
  have hkey : g ∈ keys (ratings_to_preferences movie_info user_ratings) ↔
      ¬ lookup g (ratings_to_preferences movie_info user_ratings) = none := by
    rw [lookup_eq_none_iff]; tauto
  rw [hkey, h]
  by_cases hc : 0 < specCount movie_info user_ratings g
  · rw [if_pos hc]
    constructor
    · intro _
      have : (user_ratings.filter (fun ms => taggedWith movie_info g ms.1)) ≠ [] := by
        intro hnil
        rw [specCount, hnil] at hc
        simp at hc
      rcases List.exists_mem_of_ne_nil _ this with ⟨ms, hms⟩
      have := List.mem_filter.1 hms
      exact ⟨ms, this.1, this.2⟩
    · intro _; simp
  · rw [if_neg hc]
    constructor
    · intro h'; exact absurd rfl h'
    · rintro ⟨ms, hmem, htag⟩
      exfalso
      apply hc
      rw [specCount]
      have : ms ∈ user_ratings.filter (fun ms => taggedWith movie_info g ms.1) :=
        List.mem_filter.2 ⟨hmem, htag⟩
      exact List.length_pos.2 (List.ne_nil_of_mem this)

/-- The end-to-end example catalog of the spec (section 8). -/
def exCatalog : Catalog :=
  [(1, ("A", ["Drama"])), (2, ("B", ["Comedy"])), (3, ("C", ["Drama", "Comedy"]))]

/-- The end-to-end example ratings store of the spec: user 10 rated
movies 1 and 2, user 20 rated movie 3. -/
def exRatings : List (Int × RatingsOf) := [(10, [(1, 5), (2, 1)]), (20, [(3, 4)])]

/-- Witness for C2: on the spec's end-to-end example, user 10's profile
value for "Drama" is the claimed sum/count. -/
theorem ratings_to_preferences_spec_witness :
    lookup "Drama" (ratings_to_preferences exCatalog [(1, 5), (2, 1)]) = some 5 := by
  have h := (ratings_to_preferences_spec exCatalog (by decide) [(1, 5), (2, 1)] "Drama").1
  rw [h]
  simp [exCatalog, specTotal, specCount, taggedWith, List.filter, lookup]

/-! ## Similarity Engine (`cosine_similarity`) -/

/-- Sum of squares of all values of a profile (the radicand of a
magnitude in `cosine_similarity`). -/
def sumSquares (p : Profile) : ℚ := (p.map (fun e => e.2 * e.2)).sum

/-- Python's `set(first) & set(second)`: the genres present in both
profiles, each once. -/
def sharedGenres (first second : Profile) : List String :=
  ((keys first).filter (fun g => g ∈ keys second)).dedup

/-- The dot product over shared genres. -/
def dotShared (first second : Profile) : ℚ :=
  ((sharedGenres first second).map
    (fun g => (lookup g first).getD 0 * (lookup g second).getD 0)).sum

/-- A profile's vector magnitude: the square root of the sum of the
squares of all of its values. -/
noncomputable def magnitude (p : Profile) : ℝ := Real.sqrt ((sumSquares p : ℚ) : ℝ)

open Classical in
/-- The model of `MovieRecommender.cosine_similarity`, with float arithmetic read as
exact real arithmetic. -/
noncomputable def cosine_similarity (first second : Profile) : ℝ :=
  if sharedGenres first second = [] then 0
  else if magnitude first = 0 ∨ magnitude second = 0 then 0
  else (dotShared first second : ℝ) / (magnitude first * magnitude second)

open Classical in
/-- The Similarity Engine exactly as claim C8 words it: 0 when the key
sets share no genre or either magnitude is exactly 0, and otherwise the
dot product over the shared genres divided by the product of the two
magnitudes. -/
noncomputable def claimCosine (first second : Profile) : ℝ :=
  if (keys first).toFinset ∩ (keys second).toFinset = ∅ ∨
      magnitude first = 0 ∨ magnitude second = 0 then 0
  else ((((keys first).toFinset ∩ (keys second).toFinset).sum
      (fun g => (lookup g first).getD 0 * (lookup g second).getD 0) : ℚ) : ℝ) /
    (magnitude first * magnitude second)

theorem sharedGenres_nodup (a b : Profile) : (sharedGenres a b).Nodup :=
  List.nodup_dedup _

theorem sharedGenres_toFinset (a b : Profile) :
    (sharedGenres a b).toFinset = (keys a).toFinset ∩ (keys b).toFinset := by
  ext g
  simp [sharedGenres, List.mem_filter, List.mem_dedup, Finset.mem_inter]

theorem sharedGenres_eq_nil_iff (a b : Profile) :
    sharedGenres a b = [] ↔ (keys a).toFinset ∩ (keys b).toFinset = ∅ := by
  rw [← sharedGenres_toFinset, List.toFinset_eq_empty_iff]

theorem dotShared_eq_finset (a b : Profile) :
    dotShared a b = ((keys a).toFinset ∩ (keys b).toFinset).sum
      (fun g => (lookup g a).getD 0 * (lookup g b).getD 0) := by
  rw [dotShared, ← List.sum_toFinset _ (sharedGenres_nodup a b), sharedGenres_toFinset]

/-- C8: `cosine_similarity` returns exactly 0 when the key sets share no
genre or either magnitude (square root of the sum of squares of all the
profile's values) is exactly 0, and otherwise the dot product over the
shared genres divided by the product of the two magnitudes. -/
theorem cosine_similarity_formula (a b : Profile) :
    cosine_similarity a b = claimCosine a b := by
  rw [cosine_similarity, claimCosine]
  by_cases h1 : sharedGenres a b = []
  · have h2 : (keys a).toFinset ∩ (keys b).toFinset = ∅ :=
      (sharedGenres_eq_nil_iff a b).1 h1
    simp [h1, h2]
  · have h2 : ¬ (keys a).toFinset ∩ (keys b).toFinset = ∅ :=
      fun hh => h1 ((sharedGenres_eq_nil_iff a b).2 hh)
    by_cases h3 : magnitude a = 0 ∨ magnitude b = 0
    · simp [h1, h2, h3]
    · simp [h1, h2, h3, dotShared_eq_finset]

/-- Witness for C8 at a concrete pair of profiles. -/
theorem cosine_similarity_formula_witness :
    cosine_similarity [("Drama", 5), ("Comedy", 1)] [("Drama", 4)] =
      claimCosine [("Drama", 5), ("Comedy", 1)] [("Drama", 4)] :=
  cosine_similarity_formula [("Drama", 5), ("Comedy", 1)] [("Drama", 4)]

/-- C7: cosine similarity is symmetric in its two profile arguments. -/
theorem cosine_similarity_comm (a b : Profile) :
    cosine_similarity a b = cosine_similarity b a := by
  rw [cosine_similarity, cosine_similarity]
  have hshared : sharedGenres a b = [] ↔ sharedGenres b a = [] := by
    rw [sharedGenres_eq_nil_iff, sharedGenres_eq_nil_iff, Finset.inter_comm]
  have hdot : dotShared a b = dotShared b a := by
    rw [dotShared_eq_finset, dotShared_eq_finset, Finset.inter_comm]
    exact Finset.sum_congr rfl (fun g _ => mul_comm _ _)
  by_cases h1 : sharedGenres a b = []
  · simp [h1, hshared.1 h1]
  · have h1' : ¬ sharedGenres b a = [] := fun hh => h1 (hshared.2 hh)
    by_cases h3 : magnitude a = 0 ∨ magnitude b = 0
    · simp [h1, h1', h3, or_comm.1 h3]
    · have h3' : ¬ (magnitude b = 0 ∨ magnitude a = 0) := fun hh => h3 (or_comm.1 hh)
      simp only [h1, h1', h3, h3', if_false, ite_false]
      rw [hdot, mul_comm]

/-- Witness for C7 at a concrete pair of profiles. -/
theorem cosine_similarity_comm_witness :
    cosine_similarity [("Drama", 5)] [("Drama", 4), ("Comedy", 2)] =
      cosine_similarity [("Drama", 4), ("Comedy", 2)] [("Drama", 5)] :=
  cosine_similarity_comm [("Drama", 5)] [("Drama", 4), ("Comedy", 2)]

theorem list_le_sum_of_mem {l : List ℚ} (h : ∀ x ∈ l, 0 ≤ x) {x : ℚ} (hx : x ∈ l) :
    x ≤ l.sum := by
  induction l with
  | nil => simp at hx
  | cons y ys ih =>
    rw [List.sum_cons]
    rcases List.mem_cons.1 hx with h₁ | h₂
    · subst h₁
      have : (0 : ℚ) ≤ ys.sum :=
        List.sum_nonneg (fun z hz => h z (List.mem_cons_of_mem _ hz))
      linarith
    · have hy : (0 : ℚ) ≤ y := h y (List.mem_cons_self _ _)
      have := ih (fun z hz => h z (List.mem_cons_of_mem _ hz)) h₂
      linarith

theorem sumSquares_nonneg (p : Profile) : 0 ≤ sumSquares p :=
  List.sum_nonneg (by
    intro x hx
    rcases List.mem_map.1 hx with ⟨e, _, rfl⟩
    exact mul_self_nonneg _)

theorem sumSquares_pos {p : Profile} (h : ∃ e ∈ p, e.2 ≠ 0) : 0 < sumSquares p := by
  rcases h with ⟨e, hmem, hne⟩
  have hsq : (0 : ℚ) < e.2 * e.2 := mul_self_pos.2 hne
  have hmm : e.2 * e.2 ∈ p.map (fun e => e.2 * e.2) := List.mem_map.2 ⟨e, hmem, rfl⟩
  have hle : e.2 * e.2 ≤ sumSquares p :=
    list_le_sum_of_mem (fun x hx => by
      rcases List.mem_map.1 hx with ⟨e', _, rfl⟩
      exact mul_self_nonneg _) hmm
  exact lt_of_lt_of_le hsq hle

theorem dotShared_self {a : Profile} (hnd : (keys a).Nodup) :
    dotShared a a = sumSquares a := by
  rw [dotShared, sumSquares, sharedGenres]
  have hfil : (keys a).filter (fun g => decide (g ∈ keys a)) = keys a :=
    List.filter_eq_self.2 (fun g hg => by simp [hg])
  rw [hfil, hnd.dedup, keys, List.map_map]
  apply congrArg List.sum
  apply List.map_congr_left
  intro e he
  have : lookup e.1 a = some e.2 := lookup_eq_some_of_mem_nodup hnd (by simpa using he)
  simp [this]

/-- C6: a profile with pairwise-distinct genre keys and at least one
non-zero value has cosine similarity exactly 1 with itself. -/
theorem cosine_self_similarity_one (a : Profile) (hnd : (keys a).Nodup)
    (hnz : ∃ e ∈ a, e.2 ≠ 0) : cosine_similarity a a = 1 := by
  have hS : 0 < sumSquares a := sumSquares_pos hnz
  have hSR : (0 : ℝ) < ((sumSquares a : ℚ) : ℝ) := by exact_mod_cast hS
  have hshared : sharedGenres a a ≠ [] := by
    rcases hnz with ⟨e, hmem, _⟩
    intro hnil
    have hk : e.1 ∈ keys a := List.mem_map.2 ⟨e, hmem, rfl⟩
    have : e.1 ∈ sharedGenres a a := by
      simp [sharedGenres, List.mem_dedup, List.mem_filter, hk]
    rw [hnil] at this
    simp at this
  have hmag : magnitude a ≠ 0 := by
    rw [magnitude]
    intro h0
    have := Real.sqrt_eq_zero'.1 h0
    linarith
  rw [cosine_similarity, if_neg hshared, if_neg (by push_neg; exact ⟨hmag, hmag⟩)]
  rw [dotShared_self hnd, magnitude, Real.mul_self_sqrt (le_of_lt hSR)]
  exact div_self (ne_of_gt hSR)

/-- Witness for C6 at a concrete one-genre profile. -/
theorem cosine_self_similarity_one_witness :
    cosine_similarity [("Drama", 2)] [("Drama", 2)] = 1 :=
  cosine_self_similarity_one [("Drama", 2)] (by simp [keys])
    ⟨("Drama", 2), by simp, by norm_num⟩

/-! ## Neighbor Finder (`find_similar_user_by_id`) -/

/-- The preference store: user ID → profile. -/
abbrev PrefStore := List (Int × Profile)

open Classical in
/-- One iteration of the loop of `find_similar_user_by_id`: skip the
target user; otherwise replace the best pair on a strictly higher
similarity, or on an exact tie won by a higher candidate ID. -/
noncomputable def bestStep (user_id : Int) (target : Profile)
    (best : ℝ × Int) (other : Int × Profile) : ℝ × Int :=
  if other.1 ≠ user_id then
    let s := cosine_similarity target other.2
    if s > best.1 ∨ (s = best.1 ∧ other.1 > best.2) then (s, other.1) else best
  else best

open Classical in
/-- The model of `MovieRecommender.find_similar_user_by_id`; `none` models the
`KeyError` raised when `user_id` is not a key of the preference store. -/
noncomputable def find_similar_user_by_id (store : PrefStore) (user_id : Int) :
    Option Int :=
  match lookup user_id store with
  | none => none
  | some target => some ((store.foldl (bestStep user_id target) (-1, -1)).2)

/-- Strict lexicographic order on (similarity, user ID) pairs: the order
in which `find_similar_user_by_id` improves its running best pair. -/
def lexLt (x y : ℝ × Int) : Prop := x.1 < y.1 ∨ (x.1 = y.1 ∧ x.2 < y.2)

/-- Reflexive closure of `lexLt`. -/
def lexLe (x y : ℝ × Int) : Prop := lexLt x y ∨ x = y

theorem lexLe_refl (x : ℝ × Int) : lexLe x x := Or.inr rfl

theorem lexLt_irrefl (x : ℝ × Int) : ¬ lexLt x x := by
  rintro (h | ⟨_, h⟩) <;> exact lt_irrefl _ h

theorem lexLt_trans {x y z : ℝ × Int} (h₁ : lexLt x y) (h₂ : lexLt y z) : lexLt x z := by
  rcases h₁ with h₁ | ⟨e₁, l₁⟩
  · rcases h₂ with h₂ | ⟨e₂, l₂⟩
    · exact Or.inl (lt_trans h₁ h₂)
    · exact Or.inl (e₂ ▸ h₁)
  · rcases h₂ with h₂ | ⟨e₂, l₂⟩
    · exact Or.inl (e₁ ▸ h₂)
    · exact Or.inr ⟨e₁.trans e₂, lt_trans l₁ l₂⟩

theorem lexLe_trans {x y z : ℝ × Int} (h₁ : lexLe x y) (h₂ : lexLe y z) : lexLe x z := by
  rcases h₁ with h₁ | rfl
  · rcases h₂ with h₂ | rfl
    · exact Or.inl (lexLt_trans h₁ h₂)
    · exact Or.inl h₁
  · exact h₂

theorem lexLe_antisymm {x y : ℝ × Int} (h₁ : lexLe x y) (h₂ : lexLe y x) : x = y := by
  rcases h₁ with h₁ | rfl
  · rcases h₂ with h₂ | rfl
    · exact absurd (lexLt_trans h₁ h₂) (lexLt_irrefl x)
    · rfl
  · rfl

theorem lexLe_of_not_lexLt {x y : ℝ × Int} (h : ¬ lexLt x y) : lexLe y x := by
  rw [lexLt] at h
  push_neg at h
  rcases lt_trichotomy y.1 x.1 with hlt | heq | hgt
  · exact Or.inl (Or.inl hlt)
  · rcases lt_trichotomy y.2 x.2 with hlt₂ | heq₂ | hgt₂
    · exact Or.inl (Or.inr ⟨heq, hlt₂⟩)
    · exact Or.inr (Prod.ext heq heq₂)
    · exact absurd hgt₂ (not_lt.2 (h.2 heq.symm))
  · exact absurd hgt (not_lt.2 h.1)

theorem lexLt_lexLe_asymm {x y : ℝ × Int} (h₁ : lexLt x y) (h₂ : lexLe y x) : False := by
  have := lexLe_antisymm (Or.inl h₁) h₂
  subst this
  exact lexLt_irrefl x h₁

open Classical in
theorem bestStep_eq_max (user_id : Int) (target : Profile) (best : ℝ × Int)
    (other : Int × Profile) :
    bestStep user_id target best other =
      if other.1 ≠ user_id then
        (if lexLt best (cosine_similarity target other.2, other.1) then
          (cosine_similarity target other.2, other.1) else best)
      else best := by
  have hiff : (cosine_similarity target other.2 > best.1 ∨
      (cosine_similarity target other.2 = best.1 ∧ other.1 > best.2)) ↔
      lexLt best (cosine_similarity target other.2, other.1) := by
    rw [lexLt]
    constructor
    · rintro (h | ⟨he, hl⟩)
      · exact Or.inl h
      · exact Or.inr ⟨he.symm, hl⟩
    · rintro (h | ⟨he, hl⟩)
      · exact Or.inl h
      · exact Or.inr ⟨he.symm, hl⟩
  simp only [bestStep, hiff]

theorem foldl_bestStep_mem (user_id : Int) (target : Profile) (l : PrefStore) :
    ∀ b, l.foldl (bestStep user_id target) b = b ∨
      ∃ e ∈ l, e.1 ≠ user_id ∧
        l.foldl (bestStep user_id target) b = (cosine_similarity target e.2, e.1) := by
  induction l with
  | nil => intro b; exact Or.inl rfl
  | cons e es ih =>
    intro b
    rw [List.foldl_cons, bestStep_eq_max]
    by_cases h : e.1 ≠ user_id
    · rw [if_pos h]
      by_cases h2 : lexLt b (cosine_similarity target e.2, e.1)
      · rw [if_pos h2]
        rcases ih (cosine_similarity target e.2, e.1) with h3 | ⟨f, hf, hfne, h3⟩
        · exact Or.inr ⟨e, List.mem_cons_self _ _, h, h3⟩
        · exact Or.inr ⟨f, List.mem_cons_of_mem _ hf, hfne, h3⟩
      · rw [if_neg h2]
        rcases ih b with h3 | ⟨f, hf, hfne, h3⟩
        · exact Or.inl h3
        · exact Or.inr ⟨f, List.mem_cons_of_mem _ hf, hfne, h3⟩
    · rw [if_neg h]
      rcases ih b with h3 | ⟨f, hf, hfne, h3⟩
      · exact Or.inl h3
      · exact Or.inr ⟨f, List.mem_cons_of_mem _ hf, hfne, h3⟩

theorem foldl_bestStep_le_init (user_id : Int) (target : Profile) (l : PrefStore) :
    ∀ b, lexLe b (l.foldl (bestStep user_id target) b) := by
  induction l with
  | nil => intro b; exact lexLe_refl b
  | cons e es ih =>
    intro b
    rw [List.foldl_cons, bestStep_eq_max]
    by_cases h : e.1 ≠ user_id
    · rw [if_pos h]
      by_cases h2 : lexLt b (cosine_similarity target e.2, e.1)
      · rw [if_pos h2]
        exact lexLe_trans (Or.inl h2) (ih _)
      · rw [if_neg h2]
        exact ih b
    · rw [if_neg h]
      exact ih b

theorem foldl_bestStep_dominates (user_id : Int) (target : Profile) (l : PrefStore) :
    ∀ b, ∀ e ∈ l, e.1 ≠ user_id →
      lexLe (cosine_similarity target e.2, e.1) (l.foldl (bestStep user_id target) b) := by
  induction l with
  | nil => intro b e he; simp at he
  | cons f fs ih =>
    intro b e he hne
    rw [List.foldl_cons, bestStep_eq_max]
    rcases List.mem_cons.1 he with heq | hmem
    · subst heq
      rw [if_pos hne]
      by_cases h2 : lexLt b (cosine_similarity target e.2, e.1)
      · rw [if_pos h2]
        exact foldl_bestStep_le_init user_id target fs _
      · rw [if_neg h2]
        exact lexLe_trans (lexLe_of_not_lexLt h2) (foldl_bestStep_le_init user_id target fs b)
    · by_cases h : f.1 ≠ user_id
      · rw [if_pos h]
        by_cases h2 : lexLt b (cosine_similarity target f.2, f.1)
        · rw [if_pos h2]
          exact ih _ e hmem hne
        · rw [if_neg h2]
          exact ih b e hmem hne
      · rw [if_neg h]
        exact ih b e hmem hne

theorem lookup_getD_nonneg {p : Profile} (h : ∀ e ∈ p, 0 ≤ e.2) (g : String) :
    (0 : ℚ) ≤ (lookup g p).getD 0 := by
  rcases hl : lookup g p with _ | v
  · simp
  · simpa using h (g, v) (lookup_mem hl)

theorem cosine_nonneg {a b : Profile} (ha : ∀ e ∈ a, 0 ≤ e.2) (hb : ∀ e ∈ b, 0 ≤ e.2) :
    0 ≤ cosine_similarity a b := by
  rw [cosine_similarity]
  by_cases h1 : sharedGenres a b = []
  · rw [if_pos h1]
  · rw [if_neg h1]
    by_cases h2 : magnitude a = 0 ∨ magnitude b = 0
    · rw [if_pos h2]
    · rw [if_neg h2]
      apply div_nonneg
      · have hq : (0 : ℚ) ≤ dotShared a b := by
          apply List.sum_nonneg
          intro x hx
          rcases List.mem_map.1 hx with ⟨g, _, rfl⟩
          exact mul_nonneg (lookup_getD_nonneg ha g) (lookup_getD_nonneg hb g)
        exact_mod_cast hq
      · exact mul_nonneg (by rw [magnitude]; exact Real.sqrt_nonneg _)
          (by rw [magnitude]; exact Real.sqrt_nonneg _)

theorem lookup_perm {K V : Type} [DecidableEq K] {l₁ l₂ : List (K × V)}
    (hnd : (keys l₁).Nodup) (hp : l₁.Perm l₂) (k : K) : lookup k l₁ = lookup k l₂ := by
  have hnd₂ : (keys l₂).Nodup := ((hp.map Prod.fst).nodup_iff).1 hnd
  rcases h : lookup k l₁ with _ | v
  · rcases h₂ : lookup k l₂ with _ | w
    · rfl
    · exfalso
      have hmem : (k, w) ∈ l₁ := hp.symm.subset (lookup_mem h₂)
      rcases lookup_isSome_of_mem hmem with ⟨u, hu⟩
      rw [h] at hu
      exact Option.noConfusion hu
  · have hmem : (k, v) ∈ l₂ := hp.subset (lookup_mem h)
    exact (lookup_eq_some_of_mem_nodup hnd₂ hmem).symm

theorem foldl_bestStep_attained (user_id : Int) (target : Profile) (store : PrefStore)
    (htnn : ∀ e ∈ target, (0 : ℚ) ≤ e.2)
    (hnn : ∀ u ∈ store, ∀ e ∈ u.2, (0 : ℚ) ≤ e.2)
    (hex : ∃ u ∈ store, u.1 ≠ user_id) :
    ∃ e ∈ store, e.1 ≠ user_id ∧
      store.foldl (bestStep user_id target) (-1, -1) =
        (cosine_similarity target e.2, e.1) := by
  rcases hex with ⟨e₀, he₀, hne₀⟩
  have hpos : lexLt (-1, -1) (cosine_similarity target e₀.2, e₀.1) := by
    apply Or.inl
    have h0 : (0 : ℝ) ≤ cosine_similarity target e₀.2 :=
      cosine_nonneg htnn (hnn e₀ he₀)
    show (-1 : ℝ) < cosine_similarity target e₀.2
    linarith
  rcases foldl_bestStep_mem user_id target store (-1, -1) with hres | h
  · exfalso
    have hdom := foldl_bestStep_dominates user_id target store (-1, -1) e₀ he₀ hne₀
    rw [hres] at hdom
    exact lexLt_lexLe_asymm hpos hdom
  · exact h

/-- C3 (amended: all profile values in the store are nonnegative, which
holds for genre-average profiles of nonnegative ratings): for a target
present in the store, `find_similar_user_by_id` returns the candidate
with the maximal similarity to the target, breaking exact ties towards
the greater user ID; it returns -1 when the store holds only the target;
and the result is invariant under permuting the store. -/
theorem find_similar_user_spec (store : PrefStore) (user_id : Int) (target : Profile)
    (hnd : (keys store).Nodup)
    (hl : lookup user_id store = some target)
    (hnn : ∀ u ∈ store, ∀ e ∈ u.2, (0 : ℚ) ≤ e.2) :
    ((∀ u ∈ store, u.1 = user_id) →
      find_similar_user_by_id store user_id = some (-1)) ∧
    ((∃ u ∈ store, u.1 ≠ user_id) →
      ∃ b bp, find_similar_user_by_id store user_id = some b ∧ b ≠ user_id ∧
        lookup b store = some bp ∧
        ∀ u ∈ store, u.1 ≠ user_id →
          (cosine_similarity target u.2 < cosine_similarity target bp ∨
            (cosine_similarity target u.2 = cosine_similarity target bp ∧ u.1 ≤ b))) ∧
    (∀ store₂, store.Perm store₂ →
      find_similar_user_by_id store₂ user_id = find_similar_user_by_id store user_id) := by
  have htnn : ∀ e ∈ target, (0 : ℚ) ≤ e.2 := hnn (user_id, target) (lookup_mem hl)
  refine ⟨?_, ?_, ?_⟩
  · intro hall
    rcases foldl_bestStep_mem user_id target store (-1, -1) with hres | ⟨e, he, hne, _⟩
    · simp only [find_similar_user_by_id, hl, hres]
    · exact absurd (hall e he) hne
  · intro hex
    rcases foldl_bestStep_attained user_id target store htnn hnn hex with ⟨e, he, hne, hres⟩
    refine ⟨e.1, e.2, ?_, hne, lookup_eq_some_of_mem_nodup hnd he, ?_⟩
    · simp only [find_similar_user_by_id, hl, hres]
    · intro u hu hune
      have hdom := foldl_bestStep_dominates user_id target store (-1, -1) u hu hune
      rw [hres] at hdom
      rcases hdom with hlt | heq
      · rcases hlt with h | ⟨h1, h2⟩
        · exact Or.inl h
        · exact Or.inr ⟨h1, le_of_lt h2⟩
      · exact Or.inr ⟨congrArg Prod.fst heq, le_of_eq (congrArg Prod.snd heq)⟩
  · intro store₂ hp
    have hl₂ : lookup user_id store₂ = some target := by
      rw [← lookup_perm hnd hp user_id]; exact hl
    have hnn₂ : ∀ u ∈ store₂, ∀ e ∈ u.2, (0 : ℚ) ≤ e.2 :=
      fun u hu => hnn u (hp.symm.subset hu)
    have hfold : store₂.foldl (bestStep user_id target) (-1, -1) =
        store.foldl (bestStep user_id target) (-1, -1) := by
      by_cases hex : ∃ u ∈ store, u.1 ≠ user_id
      · have hex₂ : ∃ u ∈ store₂, u.1 ≠ user_id := by
          rcases hex with ⟨u, hu, hne⟩
          exact ⟨u, hp.subset hu, hne⟩
        rcases foldl_bestStep_attained user_id target store htnn hnn hex with
          ⟨e₁, he₁, hne₁, hr₁⟩
        rcases foldl_bestStep_attained user_id target store₂ htnn hnn₂ hex₂ with
          ⟨e₂, he₂, hne₂, hr₂⟩
        rw [hr₁, hr₂]
        apply lexLe_antisymm
        · have := foldl_bestStep_dominates user_id target store (-1, -1) e₂
            (hp.symm.subset he₂) hne₂
          rw [hr₁] at this
          exact this
        · have := foldl_bestStep_dominates user_id target store₂ (-1, -1) e₁
            (hp.subset he₁) hne₁
          rw [hr₂] at this
          exact this
      · have hex₂ : ¬ ∃ u ∈ store₂, u.1 ≠ user_id := by
          rintro ⟨u, hu, hne⟩
          exact hex ⟨u, hp.symm.subset hu, hne⟩
        have hr₁ : store.foldl (bestStep user_id target) (-1, -1) = (-1, -1) := by
          rcases foldl_bestStep_mem user_id target store (-1, -1) with h | ⟨e, he, hne, _⟩
          · exact h
          · exact absurd ⟨e, he, hne⟩ hex
        have hr₂ : store₂.foldl (bestStep user_id target) (-1, -1) = (-1, -1) := by
          rcases foldl_bestStep_mem user_id target store₂ (-1, -1) with h | ⟨e, he, hne, _⟩
          · exact h
          · exact absurd ⟨e, he, hne⟩ hex₂
        rw [hr₁, hr₂]
    simp only [find_similar_user_by_id, hl, hl₂, hfold]

theorem cosine_neg_example : cosine_similarity [("g", 1)] [("g", -1)] = -1 := by
  rw [cosine_similarity]
  have h1 : sharedGenres [("g", (1 : ℚ))] [("g", (-1 : ℚ))] = ["g"] := by decide
  rw [if_neg (by rw [h1]; simp)]
  have hmA : magnitude [("g", (1 : ℚ))] = 1 := by
    rw [magnitude]
    have hs : sumSquares [("g", (1 : ℚ))] = 1 := by norm_num [sumSquares]
    rw [hs]
    norm_num
  have hmB : magnitude [("g", (-1 : ℚ))] = 1 := by
    rw [magnitude]
    have hs : sumSquares [("g", (-1 : ℚ))] = 1 := by norm_num [sumSquares]
    rw [hs]
    norm_num
  rw [if_neg (by rw [hmA, hmB]; norm_num)]
  have hdot : dotShared [("g", (1 : ℚ))] [("g", (-1 : ℚ))] = -1 := by
    rw [dotShared, h1]
    norm_num [lookup]
  rw [hdot, hmA, hmB]
  norm_num

/-- A preference store on which the claimed argmax description fails:
the single candidate has similarity exactly -1.0 (a negative profile
value) and user ID -2, so it never beats the initial best pair. -/
def sentinelStore : PrefStore := [(0, [("g", 1)]), (-2, [("g", -1)])]

/-- C3 counterexample: on `sentinelStore` the function returns -1, which
is not a key of the store at all, while the claim demands the candidate
(-2) with maximal similarity. -/
theorem find_similar_user_sentinel_cex :
    find_similar_user_by_id sentinelStore 0 = some (-1) ∧
    (-1 : Int) ∉ keys sentinelStore := by
  constructor
  · have hl : lookup (0 : Int) sentinelStore = some [("g", 1)] := rfl
    have hfold : sentinelStore.foldl (bestStep 0 [("g", 1)]) (-1, -1) = (-1, -1) := by
      show List.foldl _ _ [((0 : Int), [("g", (1 : ℚ))]), (-2, [("g", -1)])] = _
      rw [List.foldl_cons, List.foldl_cons, List.foldl_nil]
      have h1 : bestStep 0 [("g", 1)] (-1, -1) (0, [("g", 1)]) = (-1, -1) := by
        rw [bestStep_eq_max]
        simp
      rw [h1, bestStep_eq_max,
        if_pos (by decide : ((-2 : Int), [("g", (-1 : ℚ))]).1 ≠ 0)]
      rw [if_neg]
      rw [cosine_neg_example]
      rintro (h | ⟨_, h2⟩)
      · exact lt_irrefl _ h
      · exact absurd h2 (by decide)
    simp only [find_similar_user_by_id, hl, hfold]
  · decide

/-- Witness for C3 on a one-user store: the store holds only the target,
so the sentinel -1 is returned. -/
theorem find_similar_user_spec_witness :
    find_similar_user_by_id [((7 : Int), [("Drama", (3 : ℚ))])] 7 = some (-1) :=
  (find_similar_user_spec [(7, [("Drama", 3)])] 7 [("Drama", 3)]
    (by decide) rfl (by decide)).1 (by decide)

/-! ## Recommendation Selector (`make_recommendations_for_id`) -/

/-- The strict order of Python's sort key `(-rating, name)`: `a` comes
before `b` when `a`'s rating is higher, or ratings tie and `a`'s name is
lexicographically smaller.  Used both for profile pairs (genre, rating)
and candidate pairs (title, rating). -/
def pairLess (a b : String × ℚ) : Bool :=
  decide (b.2 < a.2) || (decide (a.2 = b.2) && decide (a.1 < b.1))

/-- Insert into a sorted list, before the first element not strictly
smaller; together with `sortBy` this is the stable ascending sort, which
is extensionally Python's `list.sort(key=...)`. -/
def insertSorted {α : Type} (lt : α → α → Bool) (x : α) : List α → List α
  | [] => [x]
  | y :: ys => if lt y x then y :: insertSorted lt x ys else x :: y :: ys

/-- Stable sort by a strict comparator. -/
def sortBy {α : Type} (lt : α → α → Bool) (l : List α) : List α :=
  l.foldr (insertSorted lt) []

/-- The first while loop of `make_recommendations_for_id`: walk the
sorted profile pairs appending genre names while fewer than two are
collected. -/
def collectTopGenres : List (String × ℚ) → List String → List String
  | [], acc => acc
  | p :: rest, acc =>
    if acc.length < 2 then collectTopGenres rest (acc ++ [p.1]) else acc

/-- The second while loop of `make_recommendations_for_id`: add the
titles of the first at-most-`n` sorted candidates to the result set. -/
def addTopFive : List (String × ℚ) → Nat → Finset String → Finset String
  | [], _, r => r
  | c :: rest, n + 1, r => addTopFive rest n (insert c.1 r)
  | _ :: _, 0, r => r

/-- The `MovieRecommender` state: the catalog and the two user stores. -/
structure MovieRecommender where
  movie_info : Catalog
  all_user_ratings : List (Int × RatingsOf)
  all_user_preferences : PrefStore

/-- The body of the candidate loop of `make_recommendations_for_id`:
one `(movie_id, rating)` entry of the recommender's ratings becomes a
`(title, rating)` candidate when the recipient has not rated the movie,
the movie is in the catalog, and its genres overlap the top genres. -/
def candStep (movie_info : Catalog) (recipient_seen : RatingsOf) (top : List String)
    (mr : Nat × ℚ) : Option (String × ℚ) :=
  if (lookup mr.1 recipient_seen).isNone then
    match lookup mr.1 movie_info with
    | some tg => if tg.2.any (fun g => g ∈ top) then some (tg.1, mr.2) else none
    | none => none
  else none

/-- The model of `MovieRecommender.make_recommendations_for_id`; `none` models the
`KeyError` raised when a ratings-store lookup fails, `some` a normal
return. -/
def make_recommendations_for_id (self : MovieRecommender)
    (recommender_id recipient_id : Int) : Option (Finset String) :=
  match lookup recipient_id self.all_user_preferences with
  | none => some ∅
  | some recipient_prefs =>
    if recipient_prefs.length = 0 then some ∅
    else
      let pairs := sortBy pairLess recipient_prefs
      let top_genres_list := collectTopGenres pairs []
      match lookup recommender_id self.all_user_ratings,
          lookup recipient_id self.all_user_ratings with
      | some recommender_ratings, some recipient_seen =>
        let candidates := recommender_ratings.filterMap
          (candStep self.movie_info recipient_seen top_genres_list)
        some (addTopFive (sortBy pairLess candidates) 5 ∅)
      | _, _ => none

/-- Claim C1's description of the recipient's top genres: profile
entries sorted by rating descending then genre ascending, first two. -/
def claimTopGenres (profile : Profile) : List String :=
  ((sortBy pairLess profile).take 2).map Prod.fst

/-- Claim C1's candidate list: the entries of the recommender's raw
ratings whose movie the recipient has not rated, exists in the catalog,
and whose genres meet the top genres — rendered as (title, rating). -/
def claimCandidates (movie_info : Catalog) (recommender_ratings recipient_seen : RatingsOf)
    (top : List String) : List (String × ℚ) :=
  (recommender_ratings.filter (fun mr =>
      decide (lookup mr.1 recipient_seen = none) &&
      (match lookup mr.1 movie_info with
       | some tg => tg.2.any (fun g => g ∈ top)
       | none => false))).map
    (fun mr => (((lookup mr.1 movie_info).getD ("", [])).1, mr.2))

/-- Claim C1's result: the set of titles of the first at-most-5
candidates under the sort by rating descending, title ascending. -/
def claimRecommendations (movie_info : Catalog)
    (recommender_ratings recipient_seen : RatingsOf) (profile : Profile) : Finset String :=
  (((sortBy pairLess (claimCandidates movie_info recommender_ratings recipient_seen
      (claimTopGenres profile))).take 5).map Prod.fst).toFinset

theorem collectTopGenres_stop (l : List (String × ℚ)) (acc : List String)
    (h : ¬ acc.length < 2) : collectTopGenres l acc = acc := by
  cases l with
  | nil => rfl
  | cons p rest => simp [collectTopGenres, h]

theorem collectTopGenres_spec (l : List (String × ℚ)) :
    collectTopGenres l [] = (l.take 2).map Prod.fst := by
  match l with
  | [] => rfl
  | [a] => rfl
  | a :: b :: rest =>
    have h1 : collectTopGenres (a :: b :: rest) [] = collectTopGenres (b :: rest) [a.1] := by
      simp [collectTopGenres]
    have h2 : collectTopGenres (b :: rest) [a.1] = collectTopGenres rest [a.1, b.1] := by
      simp [collectTopGenres]
    have h3 : collectTopGenres rest [a.1, b.1] = [a.1, b.1] :=
      collectTopGenres_stop rest _ (by simp)
    rw [h1, h2, h3]
    simp [List.take]

theorem addTopFive_spec (l : List (String × ℚ)) :
    ∀ (n : Nat) (r : Finset String),
      addTopFive l n r = ((l.take n).map Prod.fst).toFinset ∪ r := by
  induction l with
  | nil => intro n r; simp [addTopFive]
  | cons c rest ih =>
    intro n r
    match n with
    | 0 => simp [addTopFive]
    | n + 1 =>
      rw [show addTopFive (c :: rest) (n + 1) r = addTopFive rest n (insert c.1 r) from rfl,
        ih n (insert c.1 r)]
      ext x
      simp [List.take, or_comm, or_assoc, or_left_comm]

theorem candidates_eq (movie_info : Catalog) (recipient_seen : RatingsOf)
    (top : List String) (recommender_ratings : RatingsOf) :
    recommender_ratings.filterMap (candStep movie_info recipient_seen top) =
      claimCandidates movie_info recommender_ratings recipient_seen top := by
  induction recommender_ratings with
  | nil => rfl
  | cons mr rest ih =>
    have hcons : claimCandidates movie_info (mr :: rest) recipient_seen top =
        if (decide (lookup mr.1 recipient_seen = none) &&
            (match lookup mr.1 movie_info with
             | some tg => tg.2.any (fun g => g ∈ top)
             | none => false)) = true then
          (((lookup mr.1 movie_info).getD ("", [])).1, mr.2) ::
            claimCandidates movie_info rest recipient_seen top
        else claimCandidates movie_info rest recipient_seen top := by
      by_cases h : (decide (lookup mr.1 recipient_seen = none) &&
          (match lookup mr.1 movie_info with
           | some tg => tg.2.any (fun g => g ∈ top)
           | none => false)) = true
      · simp only [claimCandidates, List.filter_cons, h, if_true, List.map_cons]
      · simp only [claimCandidates, List.filter_cons, h, if_false, Bool.false_eq_true]
    rw [hcons]
    rcases hseen : lookup mr.1 recipient_seen with _ | s
    · rcases hinfo : lookup mr.1 movie_info with _ | tg
      · have hstep : candStep movie_info recipient_seen top mr = none := by
          simp [candStep, hseen, hinfo]
        rw [List.filterMap_cons_none hstep]
        simp [ih]
      · by_cases hany : (tg.2.any (fun g => g ∈ top)) = true
        · have hstep : candStep movie_info recipient_seen top mr = some (tg.1, mr.2) := by
            simp [candStep, hseen, hinfo, hany]
          rw [List.filterMap_cons_some hstep]
          simp [hany, ih]
        · have hstep : candStep movie_info recipient_seen top mr = none := by
            simp [candStep, hseen, hinfo, hany]
          rw [List.filterMap_cons_none hstep]
          simp [hany, ih]
    · have hstep : candStep movie_info recipient_seen top mr = none := by
        simp [candStep, hseen]
      rw [List.filterMap_cons_none hstep]
      simp [ih]

/-- C1: for a recommender present in the raw-ratings store and a
recipient with a non-empty profile (present in the raw-ratings store as
the store-sync invariant guarantees), the function returns exactly the
set of titles of the first at-most-5 candidates under the sort by rating
descending then title ascending, and that set has at most 5 elements. -/
theorem make_recommendations_spec (self : MovieRecommender)
    (recommender_id recipient_id : Int) (recRat seen : RatingsOf) (profile : Profile)
    (hrec : lookup recommender_id self.all_user_ratings = some recRat)
    (hprof : lookup recipient_id self.all_user_preferences = some profile)
    (hne : profile ≠ [])
    (hseen : lookup recipient_id self.all_user_ratings = some seen) :
    make_recommendations_for_id self recommender_id recipient_id =
      some (claimRecommendations self.movie_info recRat seen profile) ∧
    (claimRecommendations self.movie_info recRat seen profile).card ≤ 5 := by
  constructor
  · have hlen : ¬ profile.length = 0 := fun h => hne (List.length_eq_zero.1 h)
    simp only [make_recommendations_for_id, hprof, hrec, hseen, hlen, if_false, ite_false]
    rw [candidates_eq, addTopFive_spec]
    rw [claimRecommendations, claimTopGenres, collectTopGenres_spec]
    simp
  · rw [claimRecommendations]
    apply le_trans (List.toFinset_card_le _)
    rw [List.length_map, List.length_take]
    exact min_le_left _ _

/-- The spec's end-to-end example state: catalog and ratings from
section 8 of the spec, with the two derived genre profiles. -/
def exRecommender : MovieRecommender :=
  { movie_info := exCatalog
    all_user_ratings := exRatings
    all_user_preferences :=
      [(10, [("Drama", 5), ("Comedy", 1)]), (20, [("Drama", 4), ("Comedy", 4)])] }

/-- Witness for C1 on the spec's end-to-end example (user 20 recommends
to user 10). -/
theorem make_recommendations_spec_witness :
    make_recommendations_for_id exRecommender 20 10 =
      some (claimRecommendations exCatalog [(3, 4)] [(1, 5), (2, 1)]
        [("Drama", 5), ("Comedy", 1)]) ∧
    (claimRecommendations exCatalog [(3, 4)] [(1, 5), (2, 1)]
      [("Drama", 5), ("Comedy", 1)]).card ≤ 5 :=
  make_recommendations_spec exRecommender 20 10 [(3, 4)] [(1, 5), (2, 1)]
    [("Drama", 5), ("Comedy", 1)] rfl rfl (by simp) rfl

/-- C4: looking up an absent target in the preference store makes
`find_similar_user_by_id` raise (here: return `none`), and an absent
recommender makes `make_recommendations_for_id` raise once the recipient
has a non-empty profile. -/
theorem missing_user_raises :
    (∀ (store : PrefStore) (user_id : Int),
      lookup user_id store = none → find_similar_user_by_id store user_id = none) ∧
    (∀ (self : MovieRecommender) (recommender_id recipient_id : Int) (profile : Profile),
      lookup recommender_id self.all_user_ratings = none →
      lookup recipient_id self.all_user_preferences = some profile →
      profile ≠ [] →
      make_recommendations_for_id self recommender_id recipient_id = none) := by
  constructor
  · intro store user_id h
    simp only [find_similar_user_by_id, h]
  · intro self recommender_id recipient_id profile hrec hprof hne
    have hlen : ¬ profile.length = 0 := fun h => hne (List.length_eq_zero.1 h)
    rcases h2 : lookup recipient_id self.all_user_ratings with _ | s
    · simp only [make_recommendations_for_id, hprof, hrec, h2, hlen, if_false, ite_false]
    · simp only [make_recommendations_for_id, hprof, hrec, h2, hlen, if_false, ite_false]

/-- Witness for C4 at concrete stores missing the queried users. -/
theorem missing_user_raises_witness :
    find_similar_user_by_id [] 5 = none ∧
    make_recommendations_for_id
      { movie_info := exCatalog, all_user_ratings := [],
        all_user_preferences := [(10, [("Drama", 5)])] } 99 10 = none :=
  ⟨missing_user_raises.1 [] 5 rfl,
   missing_user_raises.2
     { movie_info := exCatalog, all_user_ratings := [],
       all_user_preferences := [(10, [("Drama", 5)])] }
     99 10 [("Drama", 5)] rfl rfl (by simp)⟩

/-- C5: a recipient that is absent from the preference store or has an
empty profile yields `some ∅` — an empty recommendation set with no
error, whatever the recommender argument is. -/
theorem empty_profile_empty_result (self : MovieRecommender)
    (recommender_id recipient_id : Int)
    (h : lookup recipient_id self.all_user_preferences = none ∨
         lookup recipient_id self.all_user_preferences = some []) :
    make_recommendations_for_id self recommender_id recipient_id = some ∅ := by
  rcases h with h | h
  · simp only [make_recommendations_for_id, h]
  · simp [make_recommendations_for_id, h]

/-- Witness for C5 with a recipient absent from the preference store. -/
theorem empty_profile_empty_result_witness :
    make_recommendations_for_id
      { movie_info := exCatalog, all_user_ratings := exRatings,
        all_user_preferences := [] } 10 20 = some ∅ :=
  empty_profile_empty_result _ 10 20 (Or.inl rfl)

/-- C10: recommending from a user to themself returns the empty set:
every movie the recommender rated is in the recipient's seen set. -/
theorem self_recommendation_empty (self : MovieRecommender) (u : Int)
    (R : RatingsOf) (P : Profile)
    (hrat : lookup u self.all_user_ratings = some R)
    (hpref : lookup u self.all_user_preferences = some P) :
    make_recommendations_for_id self u u = some ∅ := by
  by_cases hP : P.length = 0
  · simp [make_recommendations_for_id, hpref, hP]
  · simp only [make_recommendations_for_id, hpref, hP, hrat, if_false, ite_false]
    have hcand : R.filterMap
        (candStep self.movie_info R (collectTopGenres (sortBy pairLess P) [])) = [] := by
      rw [List.filterMap_eq_nil_iff]
      intro mr hmr
      rcases lookup_isSome_of_mem (show (mr.1, mr.2) ∈ R from hmr) with ⟨w, hw⟩
      simp [candStep, hw]
    rw [hcand]
    rfl

/-- Witness for C10 on the spec's end-to-end example (user 10 with
themself). -/
theorem self_recommendation_empty_witness :
    make_recommendations_for_id exRecommender 10 10 = some ∅ :=
  self_recommendation_empty exRecommender 10 [(1, 5), (2, 1)]
    [("Drama", 5), ("Comedy", 1)] rfl rfl

/-! ## Ingesting new ratings (`add_new_ratings`) -/

/-- Python's `dict.update(new)`: keys already present keep their position
and take the new value; keys only in `new` are appended in `new`'s
order. -/
def update {K V : Type} [DecidableEq K] (d new : List (K × V)) : List (K × V) :=
  d.map (fun e => (e.1, (lookup e.1 new).getD e.2)) ++
    new.filter (fun e => (lookup e.1 d).isNone)

theorem update_lookup {K V : Type} [DecidableEq K] (d n : List (K × V)) (k : K) :
    lookup k (update d n) = (lookup k n).or (lookup k d) := by
  rw [update, lookup_append,
    lookup_map_value k (fun k v => (lookup k n).getD v) d,
    lookup_filter_key k (fun k => (lookup k d).isNone) n]
  rcases hd : lookup k d with _ | v
  · rcases hn : lookup k n with _ | w
    · simp [Option.or]
    · simp [Option.or]
  · rcases hn : lookup k n with _ | w
    · simp [Option.or]
    · simp [Option.or]

theorem update_keys {K V : Type} [DecidableEq K] (d n : List (K × V)) :
    keys (update d n) =
      keys d ++ keys (n.filter (fun e => (lookup e.1 d).isNone)) := by
  rw [update, keys, List.map_append, List.map_map]
  rfl

theorem update_keys_toFinset {K V : Type} [DecidableEq K] (d n : List (K × V)) :
    (keys (update d n)).toFinset = (keys d).toFinset ∪ (keys n).toFinset := by
  ext k
  rw [update_keys]
  simp only [List.toFinset_append, Finset.mem_union, List.mem_toFinset]
  constructor
  · rintro (h | h)
    · exact Or.inl h
    · rcases List.mem_map.1 h with ⟨e, he, rfl⟩
      exact Or.inr (List.mem_map.2 ⟨e, (List.mem_filter.1 he).1, rfl⟩)
  · rintro (h | h)
    · exact Or.inl h
    · by_cases hd : k ∈ keys d
      · exact Or.inl hd
      · right
        rcases List.mem_map.1 h with ⟨e, he, rfl⟩
        refine List.mem_map.2 ⟨e, List.mem_filter.2 ⟨he, ?_⟩, rfl⟩
        have : lookup e.1 d = none := (lookup_eq_none_iff e.1 d).2 hd
        simp [this]

/-- Relabelling values of an association list leaves the keys alone. -/
theorem keys_map_value {K V W : Type} (F : K → V → W) (l : List (K × V)) :
    keys (l.map (fun e => (e.1, F e.1 e.2))) = keys l := by
  rw [keys, List.map_map]
  rfl

/-- The model of `MovieRecommender.__init__` after the two JSON loads: store the
catalog and ratings and eagerly derive every user's profile. -/
def mkMovieRecommender (movie_info : Catalog)
    (all_user_ratings : List (Int × RatingsOf)) : MovieRecommender :=
  { movie_info := movie_info
    all_user_ratings := all_user_ratings
    all_user_preferences :=
      all_user_ratings.map (fun ur => (ur.1, ratings_to_preferences movie_info ur.2)) }

/-- The model of `MovieRecommender.add_new_ratings` after its JSON load: derive the
new users' profiles and merge both stores with dict `update`. -/
def add_new_ratings (self : MovieRecommender)
    (new_ratings : List (Int × RatingsOf)) : MovieRecommender :=
  let new_preferences :=
    new_ratings.map (fun ur => (ur.1, ratings_to_preferences self.movie_info ur.2))
  { self with
    all_user_ratings := update self.all_user_ratings new_ratings
    all_user_preferences := update self.all_user_preferences new_preferences }

/-- C9: ingesting replaces the ratings and preference entries of every
user in the new data wholesale, keeps all other users' entries, deletes
no user, and preserves the key-set sync between the two stores, which
also holds right after construction. -/
theorem add_new_ratings_spec (self : MovieRecommender)
    (new_ratings : List (Int × RatingsOf)) :
    (∀ u R, lookup u new_ratings = some R →
      lookup u (add_new_ratings self new_ratings).all_user_ratings = some R ∧
      lookup u (add_new_ratings self new_ratings).all_user_preferences =
        some (ratings_to_preferences self.movie_info R)) ∧
    (∀ u, lookup u new_ratings = none →
      lookup u (add_new_ratings self new_ratings).all_user_ratings =
        lookup u self.all_user_ratings ∧
      lookup u (add_new_ratings self new_ratings).all_user_preferences =
        lookup u self.all_user_preferences) ∧
    (∀ u, u ∈ keys self.all_user_ratings →
      u ∈ keys (add_new_ratings self new_ratings).all_user_ratings) ∧
    (∀ u, u ∈ keys self.all_user_preferences →
      u ∈ keys (add_new_ratings self new_ratings).all_user_preferences) ∧
    ((keys self.all_user_preferences).toFinset =
        (keys self.all_user_ratings).toFinset →
      (keys (add_new_ratings self new_ratings).all_user_preferences).toFinset =
        (keys (add_new_ratings self new_ratings).all_user_ratings).toFinset) ∧
    (∀ (movie_info : Catalog) (ratings : List (Int × RatingsOf)),
      keys (mkMovieRecommender movie_info ratings).all_user_preferences =
        keys (mkMovieRecommender movie_info ratings).all_user_ratings) := by
  have hprefs : ∀ u, lookup u (new_ratings.map
      (fun ur => (ur.1, ratings_to_preferences self.movie_info ur.2))) =
      (lookup u new_ratings).map (fun R => ratings_to_preferences self.movie_info R) :=
    fun u => lookup_map_value u (fun _ R => ratings_to_preferences self.movie_info R)
      new_ratings
  refine ⟨?_, ?_, ?_, ?_, ?_, ?_⟩
  · intro u R h
    constructor
    · show lookup u (update self.all_user_ratings new_ratings) = some R
      rw [update_lookup, h]
      rfl
    · show lookup u (update self.all_user_preferences _) = _
      rw [update_lookup, hprefs u, h]
      rfl
  · intro u h
    constructor
    · show lookup u (update self.all_user_ratings new_ratings) = _
      rw [update_lookup, h]
      rfl
    · show lookup u (update self.all_user_preferences _) = _
      rw [update_lookup, hprefs u, h]
      rfl
  · intro u h
    show u ∈ keys (update self.all_user_ratings new_ratings)
    rw [update_keys]
    exact List.mem_append_left _ h
  · intro u h
    show u ∈ keys (update self.all_user_preferences _)
    rw [update_keys]
    exact List.mem_append_left _ h
  · intro hsync
    show (keys (update self.all_user_preferences _)).toFinset =
      (keys (update self.all_user_ratings new_ratings)).toFinset
    rw [update_keys_toFinset, update_keys_toFinset, hsync,
      keys_map_value (fun _ R => ratings_to_preferences self.movie_info R) new_ratings]
  · intro movie_info ratings
    exact keys_map_value (fun _ R => ratings_to_preferences movie_info R) ratings

/-- Witness for C9: ingesting a replacement rating set for user 10 on
the spec's example replaces that user's entry and leaves user 20's. -/
theorem add_new_ratings_spec_witness :
    lookup 10 (add_new_ratings exRecommender [(10, [(3, 2)])]).all_user_ratings =
      some [(3, 2)] ∧
    lookup 20 (add_new_ratings exRecommender [(10, [(3, 2)])]).all_user_ratings =
      lookup 20 exRecommender.all_user_ratings :=
  ⟨((add_new_ratings_spec exRecommender [(10, [(3, 2)])]).1 10 [(3, 2)] rfl).1,
   ((add_new_ratings_spec exRecommender [(10, [(3, 2)])]).2.1 20 rfl).1⟩

end WhatToWatch
